import Mathlib

/-!
Verification development for the BK-THERAPY invoice generator.

The Python sources (src/invoice_generator.py, src/app.py) are shallowly
embedded below.  Python Decimal values are modelled as exact rationals
(the 28-digit context precision is not modelled; all values occurring in
invoices are far below it), datetimes as integer day counts, and the
reportlab canvas as a command trace with the ambient font made explicit
on every text command (colour and line-width canvas state is elided as
it does not affect any property considered here).  Floating point page
geometry is modelled with exact rationals.
-/

namespace BKTherapy

/-! ## Decimal rounding (Python decimal, ROUND_HALF_UP) -/

/-- Rounds a rational to the nearest integer, ties away from zero.
This embeds the ROUND_HALF_UP rounding mode of the Python decimal module. -/
def roundHalfUp (q : ℚ) : ℤ :=
  if 0 ≤ q then ⌊q + 1 / 2⌋ else -⌊(-q) + 1 / 2⌋

/-- Embeds x.quantize(Decimal("0.01"), rounding=ROUND_HALF_UP): the nearest
multiple of 1/100, ties away from zero. -/
def quantize2 (q : ℚ) : ℚ := (roundHalfUp (q * 100) : ℚ) / 100

/-- Specification of round-half-up to an integer: n is within a half of x,
and an exact half rounds away from zero (strict bound on the zero side). -/
def rhuSpec (x : ℚ) (n : ℤ) : Prop :=
  (0 ≤ x → x - 1 / 2 < (n : ℚ) ∧ (n : ℚ) ≤ x + 1 / 2) ∧
  (x < 0 → x - 1 / 2 ≤ (n : ℚ) ∧ (n : ℚ) < x + 1 / 2)

theorem roundHalfUp_spec (x : ℚ) : rhuSpec x (roundHalfUp x) := by
  unfold rhuSpec roundHalfUp
  by_cases h : 0 ≤ x
  · rw [if_pos h]
    refine ⟨fun _ => ⟨?_, Int.floor_le _⟩, fun hneg => absurd h (not_le.mpr hneg)⟩
    have := Int.lt_floor_add_one (x + 1 / 2)
    linarith
  · rw [if_neg h]
    refine ⟨fun hpos => absurd hpos h, fun _ => ⟨?_, ?_⟩⟩
    · have := Int.floor_le (-x + 1 / 2)
      push_cast
      linarith
    · have := Int.lt_floor_add_one (-x + 1 / 2)
      push_cast
      linarith

theorem roundHalfUp_intCast (n : ℤ) : roundHalfUp (n : ℚ) = n := by
  unfold roundHalfUp
  have h2 : ⌊(1 : ℚ) / 2⌋ = 0 := by norm_num
  by_cases h : 0 ≤ (n : ℚ)
  · rw [if_pos h, Int.floor_int_add n (1 / 2), h2, add_zero]
  · rw [if_neg h]
    have he : (-(n : ℚ) + 1 / 2) = ((-n : ℤ) : ℚ) + 1 / 2 := by push_cast; ring
    rw [he, Int.floor_int_add (-n) (1 / 2), h2, add_zero, neg_neg]

theorem quantize2_idem (q : ℚ) : quantize2 (quantize2 q) = quantize2 q := by
  unfold quantize2
  rw [div_mul_cancel₀ _ (by norm_num : (100 : ℚ) ≠ 0), roundHalfUp_intCast]

theorem quantize2_zero : quantize2 0 = 0 := by
  unfold quantize2 roundHalfUp
  norm_num

/-! ## Enums (VATMode, Language) -/

/-- Embeds the VATMode enum. -/
inductive VATMode where
  | none
  | inclusive
  | exclusive
deriving DecidableEq, Repr

/-- Embeds the Language enum. -/
inductive Language where
  | de
  | en
deriving DecidableEq, Repr

/-! ## Data model -/

/-- Embeds the Address dataclass. -/
structure Address where
  name : String
  street : String := ""
  postal_code : String := ""
  city : String := ""
  country : String := ""
  additional_lines : List String := []
deriving DecidableEq, Repr

/-- The whitespace set of Python str.isspace / str.strip: the ASCII
whitespace characters 0x09 to 0x0D (tab, newline, vertical tab, form feed,
carriage return), the separators 0x1C to 0x1F, the space, NEL (0x85),
no-break space (0xA0) and the Unicode space separators. -/
def pyIsSpace (c : Char) : Bool :=
  let n := c.toNat
  (9 ≤ n && n ≤ 13) || (28 ≤ n && n ≤ 32) || n = 0x85 || n = 0xA0 ||
  n = 0x1680 || (0x2000 ≤ n && n ≤ 0x200A) || n = 0x2028 || n = 0x2029 ||
  n = 0x202F || n = 0x205F || n = 0x3000

/-- Embeds the character-list form of Python str.strip(): characters of the
Python whitespace set are removed from both ends. -/
def stripList (l : List Char) : List Char :=
  ((l.dropWhile pyIsSpace).reverse.dropWhile pyIsSpace).reverse

/-- Embeds Python str.strip() on strings. -/
def stripStr (s : String) : String := String.mk (stripList s.data)

/-- Embeds Address.to_lines: street if truthy, then the stripped
postal-code/city line if either is truthy, then the country if truthy,
then the additional lines verbatim. -/
def Address.to_lines (a : Address) : List String :=
  (if a.street ≠ "" then [a.street] else []) ++
  (if a.postal_code ≠ "" ∨ a.city ≠ "" then
      [stripStr (a.postal_code ++ " " ++ a.city)] else []) ++
  (if a.country ≠ "" then [a.country] else []) ++
  a.additional_lines

/-- Embeds the Issuer dataclass. -/
structure Issuer where
  address : Address
  phone : String := ""
  email : String := ""
  tax_number : String := ""
  vat_id : String := ""
  website : String := ""
deriving DecidableEq, Repr

/-- Embeds Issuer.validate. -/
def Issuer.validate (i : Issuer) : List String :=
  if i.address.name = "" then ["Aussteller: Name fehlt"] else []

/-- Embeds the Client dataclass. -/
structure Client where
  address : Address
  client_number : String := ""
  vat_id : String := ""
deriving DecidableEq, Repr

/-- Embeds Client.validate. -/
def Client.validate (c : Client) : List String :=
  if c.address.name = "" then ["Kunde: Name fehlt"] else []

/-- Embeds the InvoiceItem dataclass; quantity, unit price and VAT rate are
Decimal values modelled as exact rationals. -/
structure InvoiceItem where
  description : String
  quantity : ℚ
  unit_price : ℚ
  unit : String := ""
  vat_rate : ℚ := 0
deriving DecidableEq, Repr

/-- Embeds InvoiceItem.net_amount: (quantity * unit_price).quantize(0.01, HALF_UP). -/
def InvoiceItem.net_amount (it : InvoiceItem) : ℚ :=
  quantize2 (it.quantity * it.unit_price)

/-- Embeds InvoiceItem.vat_amount: (net_amount * vat_rate / 100).quantize(0.01, HALF_UP). -/
def InvoiceItem.vat_amount (it : InvoiceItem) : ℚ :=
  quantize2 (it.net_amount * it.vat_rate / 100)

/-- Embeds InvoiceItem.gross_amount: net_amount + vat_amount, with no further rounding. -/
def InvoiceItem.gross_amount (it : InvoiceItem) : ℚ :=
  it.net_amount + it.vat_amount

/-- Embeds InvoiceItem.validate. -/
def InvoiceItem.validate (it : InvoiceItem) : List String :=
  (if stripStr it.description = "" then ["Position: Beschreibung fehlt"] else []) ++
  (if it.quantity ≤ 0 then
      ["Position \x27" ++ it.description ++ "\x27: Menge muss positiv sein"] else []) ++
  (if it.unit_price < 0 then
      ["Position \x27" ++ it.description ++ "\x27: Preis darf nicht negativ sein"] else [])

/-- Embeds the PaymentInfo dataclass. -/
structure PaymentInfo where
  account_holder : String := ""
  iban : String := ""
  bic : String := ""
  bank_name : String := ""
  payment_reference : String := ""
deriving DecidableEq, Repr

/-- Embeds PaymentInfo.validate. -/
def PaymentInfo.validate (p : PaymentInfo) : List String :=
  if p.iban = "" then ["Zahlung: IBAN fehlt"] else []

/-- Embeds the InvoiceMetadata dataclass after its post-init hook has run:
the issue and service dates are resolved integers (day counts). -/
structure InvoiceMetadata where
  number : String
  date : ℤ
  service_date : ℤ
  service_period_start : Option ℤ := .none
  service_period_end : Option ℤ := .none
  title : String := ""
  due_days : ℤ := 14
  notes : List String := []
deriving DecidableEq, Repr

/-- Embeds constructing InvoiceMetadata together with its post-init hook:
a missing issue date defaults to today, a missing service date defaults to
the (possibly defaulted) issue date.  Dates are day counts; today is the
ambient current day. -/
def mkInvoiceMetadata (today : ℤ) (number : String)
    (date service_date : Option ℤ)
    (service_period_start service_period_end : Option ℤ)
    (title : String) (due_days : ℤ) (notes : List String) : InvoiceMetadata :=
  let d := date.getD today
  { number := number, date := d, service_date := service_date.getD d,
    service_period_start := service_period_start,
    service_period_end := service_period_end,
    title := title, due_days := due_days, notes := notes }

/-- Embeds the InvoiceMetadata.due_date property: date plus due_days calendar
days (timedelta on day counts). -/
def InvoiceMetadata.due_date (m : InvoiceMetadata) : ℤ := m.date + m.due_days

/-- Embeds InvoiceMetadata.validate. -/
def InvoiceMetadata.validate (m : InvoiceMetadata) : List String :=
  if m.number = "" then ["Rechnung: Nummer fehlt"] else []

/-- Embeds the Invoice dataclass (logo path elided: image loading is an
external resource concern with no bearing on the properties here). -/
structure Invoice where
  issuer : Issuer
  client : Client
  metadata : InvoiceMetadata
  items : List InvoiceItem
  payment : PaymentInfo
  vat_mode : VATMode := .none
  language : Language := .de
deriving DecidableEq, Repr

/-- Embeds Invoice.subtotal: the sum of the already-rounded per-item net
amounts, starting from Decimal(0). -/
def Invoice.subtotal (inv : Invoice) : ℚ :=
  (inv.items.map InvoiceItem.net_amount).sum

/-- Embeds Invoice.total_vat: the sum of the already-rounded per-item VAT
amounts, starting from Decimal(0). -/
def Invoice.total_vat (inv : Invoice) : ℚ :=
  (inv.items.map InvoiceItem.vat_amount).sum

/-- Embeds Invoice.total: the subtotal when the VAT mode is NONE, otherwise
subtotal plus total VAT. -/
def Invoice.total (inv : Invoice) : ℚ :=
  if inv.vat_mode = VATMode.none then inv.subtotal
  else inv.subtotal + inv.total_vat

/-- Embeds the insertion step of Invoice.vat_summary: a missing rate key is
appended at the end with value zero and then incremented, an existing key is
incremented in place (Python dict insertion order). -/
def addVat : List (ℚ × ℚ) → ℚ → ℚ → List (ℚ × ℚ)
  | [], r, a => [(r, a)]
  | (k, v) :: t, r, a =>
      if k = r then (k, v + a) :: t else (k, v) :: addVat t r a

/-- Embeds the per-item step of Invoice.vat_summary: items whose VAT rate is
greater than zero contribute their vat_amount under their rate. -/
def vatStep (s : List (ℚ × ℚ)) (it : InvoiceItem) : List (ℚ × ℚ) :=
  if 0 < it.vat_rate then addVat s it.vat_rate it.vat_amount else s

/-- Embeds Invoice.vat_summary as an insertion-ordered association list from
VAT rate to aggregated VAT amount. -/
def Invoice.vat_summary (inv : Invoice) : List (ℚ × ℚ) :=
  inv.items.foldl vatStep []

/-- Lookup in an association list of rates, with 0 for a missing key. -/
def lookupD : List (ℚ × ℚ) → ℚ → ℚ
  | [], _ => 0
  | (k, v) :: t, r => if k = r then v else lookupD t r

/-- Embeds Invoice.validate: the concatenation of the child validations, the
per-item validations, and the invoice-level empty-items check. -/
def Invoice.validate (inv : Invoice) : List String :=
  inv.issuer.validate ++ inv.client.validate ++ inv.metadata.validate ++
  inv.payment.validate ++ (inv.items.map InvoiceItem.validate).flatten ++
  (if inv.items = [] then ["Rechnung: Keine Positionen vorhanden"] else [])

/-! ## Translations -/

/-- Embeds the German entry of the TRANSLATIONS table. -/
def deTable : List (String × String) :=
  [("invoice", "Rechnung"),
   ("invoice_number", "Rechnungsnummer"),
   ("invoice_date", "Rechnungsdatum"),
   ("service_date", "Leistungsdatum"),
   ("bill_to", "Rechnung an:"),
   ("service", "Leistung"),
   ("quantity", "Menge"),
   ("unit_price", "Einzelpreis"),
   ("amount", "Betrag"),
   ("subtotal", "Zwischensumme"),
   ("vat", "MwSt."),
   ("total", "Gesamt"),
   ("payment_terms", "Zahlungsziel"),
   ("due_date", "Fällig am"),
   ("days", "Tage"),
   ("account_holder", "Kontoinhaber"),
   ("vat_note_small_business",
     "Gemäß § 19 UStG (Kleinunternehmerregelung) wird keine Umsatzsteuer ausgewiesen."),
   ("vat_id", "USt-IdNr."),
   ("tax_number", "St-Nr."),
   ("phone", "Tel"),
   ("page", "Seite")]

/-- Embeds the English entry of the TRANSLATIONS table. -/
def enTable : List (String × String) :=
  [("invoice", "Invoice"),
   ("invoice_number", "Invoice Number"),
   ("invoice_date", "Invoice Date"),
   ("service_date", "Service Date"),
   ("bill_to", "Bill to:"),
   ("service", "Description"),
   ("quantity", "Qty"),
   ("unit_price", "Unit Price"),
   ("amount", "Amount"),
   ("subtotal", "Subtotal"),
   ("vat", "VAT"),
   ("total", "Total"),
   ("payment_terms", "Payment Terms"),
   ("due_date", "Due Date"),
   ("days", "days"),
   ("account_holder", "Account Holder"),
   ("vat_note_small_business",
     "No VAT charged according to § 19 UStG (small business regulation)."),
   ("vat_id", "VAT ID"),
   ("tax_number", "Tax No."),
   ("phone", "Phone"),
   ("page", "Page")]

/-- Embeds the two-level TRANSLATIONS dictionary keyed by language. -/
def TRANSLATIONS : List (Language × List (String × String)) :=
  [(.de, deTable), (.en, enTable)]

/-- Lookup in a string association list (dict.get with a default handled by
the caller). -/
def lookupStr : List (String × String) → String → Option String
  | [], _ => .none
  | (k, v) :: t, key => if k = key then some v else lookupStr t key

/-- Lookup of a language in TRANSLATIONS. -/
def lookupLang : List (Language × List (String × String)) → Language →
    Option (List (String × String))
  | [], _ => .none
  | (k, v) :: t, lang => if k = lang then some v else lookupLang t lang

/-- The translation table selected for an invoice:
TRANSLATIONS.get(language, TRANSLATIONS[Language.DE]). -/
def Invoice.selectedTable (inv : Invoice) : List (String × String) :=
  (lookupLang TRANSLATIONS inv.language).getD deTable

/-- Embeds Invoice.t: look the key up in the selected table and fall back to
the key itself when it is absent. -/
def Invoice.t (inv : Invoice) (key : String) : String :=
  (lookupStr inv.selectedTable key).getD key

/-! ## Money and formatting helpers -/

/-- Splits a reversed digit list into groups of three (the last group may be
shorter); used for thousands grouping. -/
def chunk3 : List Char → List (List Char)
  | a :: b :: c :: rest => [a, b, c] :: chunk3 rest
  | [] => []
  | l => [l]

/-- Embeds the thousands grouping of Python format strings: the decimal
digits of n separated into groups of three by sep. -/
def groupDigits (n : ℕ) (sep : Char) : String :=
  String.mk (((chunk3 (toString n).data.reverse).intersperse [sep]).flatten.reverse)

/-- Two-digit zero-padded rendering of n < 100 (the format spec 02d). -/
def twoDigits (n : ℕ) : String :=
  if n < 10 then "0" ++ toString n else toString n

/-- Embeds format_currency.  The amount is first quantized to two decimals
with round-half-up.  For the DE locale the code takes the sign, the integer
part of the absolute value (int truncates toward zero, which is the floor of
the absolute value) and the fraction scaled by 100, groups thousands with a
dot and uses a comma before the two fraction digits, with the symbol after
the number.  For other locales it embeds the format spec ,.2f with the symbol
first.  Negative zero Decimals cannot be modelled by rationals; apart from
that edge the decomposition below is the value the Python digit extraction
computes. -/
def formatCurrency (amount : ℚ) (currency : String) (locale : Language) : String :=
  let a := quantize2 amount
  let sign := if a < 0 then "-" else ""
  let b := |a|
  let intPart : ℕ := (⌊b⌋).toNat
  let decPart : ℕ := (⌊(b - ⌊b⌋) * 100⌋).toNat
  match locale with
  | .de => sign ++ groupDigits intPart '.' ++ "," ++ twoDigits decPart ++ " " ++ currency
  | .en => currency ++ sign ++ groupDigits intPart ',' ++ "." ++ twoDigits decPart

/-- Embeds format_date: DD.MM.YYYY for the DE locale, YYYY-MM-DD otherwise.
Dates are abstract day counts here, so the embedding records only the locale
choice applied to the three rendered calendar fields. -/
def formatDateFields (day month year : ℕ) (locale : Language) : String :=
  match locale with
  | .de => twoDigits day ++ "." ++ twoDigits month ++ "." ++ toString year
  | .en => toString year ++ "-" ++ twoDigits month ++ "-" ++ twoDigits day

/-- Zero-pads a string on the left to length k. -/
def padZeros (k : ℕ) (s : String) : String :=
  String.mk (List.replicate (k - s.length) '0') ++ s

/-- Renders a decimal-representable rational the way str applied to a
normalized Decimal does: integers without a fractional part, otherwise the
minimal number of fractional digits (trailing zeros stripped).  Rationals
whose denominator divides no power of ten cannot arise from Decimal inputs;
they fall back to a fraction rendering. -/
def ratToDecimalString (q : ℚ) : String :=
  if q.den = 1 then toString q.num
  else
    match (List.range 64).find? (fun k => (10 ^ k) % q.den = 0) with
    | some k =>
        let n := q.num * ((10 ^ k : ℕ) / q.den : ℕ)
        let sign := if n < 0 then "-" else ""
        let m := n.natAbs
        sign ++ toString (m / 10 ^ k) ++ "." ++ padZeros k (toString (m % 10 ^ k))
    | .none => toString q.num ++ "/" ++ toString q.den

/-- Embeds format_quantity: integral quantities render as plain integers,
non-integral ones in normalized decimal form, with the unit appended after
one space when present. -/
def formatQuantity (qty : ℚ) (unit : String) : String :=
  let qtyStr := ratToDecimalString qty
  if unit ≠ "" then qtyStr ++ " " ++ unit else qtyStr

/-! ## Numeric input conversion -/

/-- Embeds str.replace applied with the single characters comma and dot. -/
def replaceCommaDot (s : String) : String :=
  String.mk (s.data.map (fun c => if c = ',' then '.' else c))

/-- Digit list to natural number. -/
def digitsToNat (l : List Char) : ℕ :=
  l.foldl (fun a c => 10 * a + (c.toNat - '0'.toNat)) 0

/-- Parses an unsigned decimal literal: digits with an optional single dot,
at least one digit overall.  Part of the model of the Python Decimal
constructor. -/
def parseUnsigned (cs : List Char) : Option ℚ :=
  match cs.splitOn '.' with
  | [ds] =>
      if ds ≠ [] ∧ ds.all Char.isDigit then some (digitsToNat ds : ℚ) else .none
  | [ip, fp] =>
      if (ip ≠ [] ∨ fp ≠ []) ∧ ip.all Char.isDigit ∧ fp.all Char.isDigit then
        some ((digitsToNat ip : ℚ) + (digitsToNat fp : ℚ) / (10 ^ fp.length))
      else .none
  | _ => .none

/-- Models the Python Decimal constructor on strings, restricted to the
forms relevant here: surrounding whitespace, an optional sign and digits
with an optional fractional part (exponents, underscores and the special
values are outside the model).  Returns none where the constructor raises
InvalidOperation. -/
def parseDecimal (s : String) : Option ℚ :=
  match (stripStr s).data with
  | '+' :: rest => parseUnsigned rest
  | '-' :: rest => (parseUnsigned rest).map Neg.neg
  | cs => parseUnsigned cs

/-- Embeds the helper to_decimal of invoice_generator.py: the value is
stringified, commas become dots, surrounding whitespace is stripped, and a
failed Decimal conversion is silently replaced by the default. -/
def to_decimal (value : String) (default : ℚ) : ℚ :=
  match parseDecimal (stripStr (replaceCommaDot value)) with
  | some q => q
  | .none => default

/-- Embeds the quantity/unit-price conversion of the web entry point
app.py: Decimal(str(value).replace(",", ".")); a malformed literal raises
InvalidOperation, which the surrounding handler surfaces as an error
response via str(e), so generation never starts.  The error value is the
stringified exception, which names only the conversion failure and does not
contain the offending input or field. -/
def appToDecimal (s : String) : Except String ℚ :=
  match parseDecimal (replaceCommaDot s) with
  | some q => .ok q
  | .none => .error "[<class \x27decimal.ConversionSyntax\x27>]"

/-! ## Layout engine

The reportlab canvas is embedded as a trace of drawing commands.  Text
commands record the ambient font at the moment of drawing (the painted
result); stroke and fill colours and line widths are canvas state that no
property here observes and are elided.  Page geometry uses exact rationals;
one point is 1 and one millimetre is 360/127 points, the exact value of the
float constant mm up to binary rounding. -/

/-- One millimetre in points. -/
def mmQ : ℚ := 360 / 127

/-- A4 page width in points. -/
def pageWidth : ℚ := 210 * mmQ

/-- A4 page height in points. -/
def pageHeight : ℚ := 297 * mmQ

/-- Embeds the LayoutConfig dataclass (font sizes as rationals; the logo
fields are elided together with image drawing). -/
structure LayoutConfig where
  margin_x : ℚ := 20 * mmQ
  margin_top : ℚ := 15 * mmQ
  margin_bottom : ℚ := 20 * mmQ
  font_size_title : ℚ := 16
  font_size_header : ℚ := 11
  font_size_normal : ℚ := 9
  font_size_small : ℚ := 8
  line_height : ℚ := 4 * mmQ
  section_gap : ℚ := 8 * mmQ
  table_row_height : ℚ := 5 * mmQ
  description_wrap_width : ℕ := 55
  default_due_days : ℤ := 14
  page_break_threshold : ℚ := 40 * mmQ
deriving DecidableEq, Repr

/-- Embeds the font names of the StyleConfig dataclass (colours elided). -/
structure StyleConfig where
  font_regular : String := "Helvetica"
  font_bold : String := "Helvetica-Bold"
deriving DecidableEq, Repr

/-- A drawing-surface command: text at a position in the ambient font
(alignRight marks drawRightString), a straight line, or a page break. -/
inductive Cmd where
  | text (font : String) (size : ℚ) (alignRight : Bool) (x y : ℚ) (txt : String)
  | line (x1 y1 x2 y2 : ℚ)
  | showPage
deriving DecidableEq, Repr

/-- The mutable generator state: ambient font, vertical cursor, page number,
table extent bookkeeping, and the accumulated command trace. -/
structure GenState where
  font : String
  fontSize : ℚ
  y : ℚ
  pageNumber : ℕ
  tableTopY : ℚ
  tableBottomY : ℚ
  cmds : List Cmd
deriving DecidableEq, Repr

/-- Appends one command to the trace. -/
def emit (c : Cmd) (st : GenState) : GenState :=
  { st with cmds := st.cmds ++ [c] }

/-- Embeds canvas.setFont. -/
def setCanvasFont (f : String) (sz : ℚ) (st : GenState) : GenState :=
  { st with font := f, fontSize := sz }

/-- Embeds canvas.drawString. -/
def drawString (x y : ℚ) (txt : String) (st : GenState) : GenState :=
  emit (.text st.font st.fontSize false x y txt) st

/-- Embeds canvas.drawRightString. -/
def drawRightString (x y : ℚ) (txt : String) (st : GenState) : GenState :=
  emit (.text st.font st.fontSize true x y txt) st

/-- The left table edge: the horizontal margin. -/
def tableLeft (l : LayoutConfig) : ℚ := l.margin_x

/-- The right table edge. -/
def tableRight (l : LayoutConfig) : ℚ := pageWidth - l.margin_x

/-- The table width between the margins. -/
def tableWidth (l : LayoutConfig) : ℚ := tableRight l - tableLeft l

/-- The right edge of the description column (55 percent of the width). -/
def colDescEnd (l : LayoutConfig) : ℚ := tableLeft l + tableWidth l * (55 / 100)

/-- The right edge of the quantity column (12 percent further). -/
def colQtyEnd (l : LayoutConfig) : ℚ := colDescEnd l + tableWidth l * (12 / 100)

/-- The right edge of the unit-price column (16 percent further). -/
def colUnitEnd (l : LayoutConfig) : ℚ := colQtyEnd l + tableWidth l * (16 / 100)

/-- The fixed 3 mm column text padding. -/
def padQ : ℚ := 3 * mmQ

/-- Right-aligned text anchor of the quantity column. -/
def colQtyTextX (l : LayoutConfig) : ℚ := colQtyEnd l - padQ

/-- Right-aligned text anchor of the unit-price column. -/
def colUnitTextX (l : LayoutConfig) : ℚ := colUnitEnd l - padQ

/-- Right-aligned text anchor of the amount column. -/
def colAmountTextX (l : LayoutConfig) : ℚ := tableRight l - padQ

/-- Embeds the page-number footer rendered from page 2 on. -/
def renderPageNumber (inv : Invoice) (l : LayoutConfig) (s : StyleConfig)
    (st : GenState) : GenState :=
  let st := setCanvasFont s.font_regular l.font_size_small st
  drawRightString (tableRight l) (l.margin_bottom / 2)
    (inv.t "page" ++ " " ++ toString st.pageNumber) st

/-- Embeds start_new_page: showPage when a page is open, the cursor reset to
the top margin, and the page-number footer from page 2 on. -/
def startNewPage (inv : Invoice) (l : LayoutConfig) (s : StyleConfig)
    (st : GenState) : GenState :=
  let st := if st.pageNumber > 0 then emit .showPage st else st
  let st := { st with pageNumber := st.pageNumber + 1, y := pageHeight - l.margin_top }
  if st.pageNumber > 1 then renderPageNumber inv l s st else st

/-- Embeds render_table_header: the four bold column labels, the horizontal
rule under the header, the three vertical separators spanning the header
row, and the cursor and font left ready for the first data row. -/
def renderTableHeader (inv : Invoice) (l : LayoutConfig) (s : StyleConfig)
    (st : GenState) : GenState :=
  let headerTop := st.y
  let st := { st with y := st.y - 5 * mmQ }
  let st := setCanvasFont s.font_bold l.font_size_normal st
  let st := drawString (tableLeft l + padQ) st.y (inv.t "service") st
  let st := drawRightString (colQtyTextX l) st.y (inv.t "quantity") st
  let st := drawRightString (colUnitTextX l) st.y (inv.t "unit_price") st
  let st := drawRightString (colAmountTextX l) st.y (inv.t "amount") st
  let st := { st with y := st.y - 4 * mmQ }
  let headerBottom := st.y
  let st := emit (.line (tableLeft l) headerBottom (tableRight l) headerBottom) st
  let st := emit (.line (colDescEnd l) headerTop (colDescEnd l) headerBottom) st
  let st := emit (.line (colQtyEnd l) headerTop (colQtyEnd l) headerBottom) st
  let st := emit (.line (colUnitEnd l) headerTop (colUnitEnd l) headerBottom) st
  let st := { st with y := st.y - 5 * mmQ }
  let st := setCanvasFont s.font_regular l.font_size_normal st
  { st with tableTopY := st.y + 5 * mmQ }

/-- Embeds draw_table_lines: the three vertical column separators spanning
the current table segment. -/
def drawTableLines (l : LayoutConfig) (st : GenState) : GenState :=
  let st := emit (.line (colDescEnd l) st.tableTopY (colDescEnd l) (st.tableBottomY + 2 * mmQ)) st
  let st := emit (.line (colQtyEnd l) st.tableTopY (colQtyEnd l) (st.tableBottomY + 2 * mmQ)) st
  emit (.line (colUnitEnd l) st.tableTopY (colUnitEnd l) (st.tableBottomY + 2 * mmQ)) st

/-- Models Python textwrap.wrap in its default greedy mode: words separated
by whitespace are packed into lines of at most width characters, a word
longer than the width is broken at the width.  The fuel argument bounds the
recursion and is chosen large enough never to run out. -/
def wrapFill (width : ℕ) : ℕ → List String → String → List String
  | _, [], cur => if cur = "" then [] else [cur]
  | 0, ws, cur => if cur = "" then ws else cur :: ws
  | fuel + 1, w :: ws, cur =>
      if cur = "" then
        if w.length ≤ width ∨ width = 0 then wrapFill width fuel ws w
        else (w.take width) :: wrapFill width fuel ((w.drop width) :: ws) ""
      else if cur.length + 1 + w.length ≤ width then
        wrapFill width fuel ws (cur ++ " " ++ w)
      else cur :: wrapFill width fuel (w :: ws) ""

/-- Splits a character list into maximal whitespace-free words (whitespace
collapsed, Python whitespace set), accumulating the current word reversed. -/
def wordsAux : List Char → List Char → List (List Char)
  | [], cur => if cur = [] then [] else [cur.reverse]
  | c :: rest, cur =>
      if pyIsSpace c then
        if cur = [] then wordsAux rest [] else cur.reverse :: wordsAux rest []
      else wordsAux rest (c :: cur)

/-- Models textwrap.wrap(text, width): whitespace-separated words greedily
filled into lines of at most width characters. -/
def wrapText (s : String) (width : ℕ) : List String :=
  let ws := (wordsAux s.data []).map String.mk
  wrapFill width (2 * s.length + 2 * ws.length + 2) ws ""

/-- The page-break block executed inside the item loop when the cursor is
below the threshold: draw the vertical table lines of the current segment,
start a new page, reset the table top and re-render the table header. -/
def pageBreakBlock (inv : Invoice) (l : LayoutConfig) (s : StyleConfig)
    (st : GenState) : GenState :=
  let st := drawTableLines l st
  let st := startNewPage inv l s st
  let st := { st with tableTopY := st.y }
  renderTableHeader inv l s st

/-- One iteration body of the item loop after the break check: draw the
description line, on the first line also the right-aligned quantity, unit
price and net amount, then advance the cursor one row height. -/
def rowStep (inv : Invoice) (l : LayoutConfig) (item : InvoiceItem)
    (ln : String) (firstLine : Bool) (st : GenState) : GenState :=
  let st := drawString (tableLeft l + padQ) st.y ln st
  let st :=
    if firstLine then
      let st := drawRightString (colQtyTextX l) st.y
        (formatQuantity item.quantity item.unit) st
      let st := drawRightString (colUnitTextX l) st.y
        (formatCurrency item.unit_price "€" inv.language) st
      drawRightString (colAmountTextX l) st.y
        (formatCurrency item.net_amount "€" inv.language) st
    else st
  { st with y := st.y - l.table_row_height }

/-- Embeds the per-line loop of render_table_item: before every line the
cursor is checked against the page-break threshold, on a break the current
vertical table lines are drawn, a new page is started and the table header
is re-rendered; then the line is rendered by rowStep. -/
def renderItemLines (inv : Invoice) (l : LayoutConfig) (s : StyleConfig)
    (item : InvoiceItem) : List String → Bool → GenState → GenState
  | [], _, st => st
  | ln :: rest, firstLine, st =>
      let st :=
        if st.y < l.page_break_threshold then pageBreakBlock inv l s st
        else st
      renderItemLines inv l s item rest false (rowStep inv l item ln firstLine st)

/-- Embeds render_table_item: the description is wrapped to the configured
width (an empty wrap yields one empty line), the lines are rendered, and the
bottom of the table segment is recorded. -/
def renderTableItem (inv : Invoice) (l : LayoutConfig) (s : StyleConfig)
    (item : InvoiceItem) (st : GenState) : GenState :=
  let wrapped := wrapText item.description l.description_wrap_width
  let wrapped := if wrapped = [] then [""] else wrapped
  let st := renderItemLines inv l s item wrapped true st
  { st with tableBottomY := st.y }

/-- Embeds render_items_table: a section gap, the header, every item in
order, and the closing vertical table lines. -/
def renderItemsTable (inv : Invoice) (l : LayoutConfig) (s : StyleConfig)
    (st : GenState) : GenState :=
  let st := { st with y := st.y - l.section_gap }
  let st := { st with tableTopY := st.y }
  let st := renderTableHeader inv l s st
  let st := inv.items.foldl (fun st it => renderTableItem inv l s it st) st
  drawTableLines l st

/-! ## Trace classification for the pagination invariant -/

/-- Is this command the page break? -/
def isShowPage : Cmd → Bool
  | .showPage => true
  | _ => false

/-- A table-header label draw: bold left-aligned text at the description
anchor.  Within the items-table trace only the header label Leistung is
drawn this way. -/
def isHeaderCmd (l : LayoutConfig) (s : StyleConfig) : Cmd → Bool
  | .text f _ ar x _ _ =>
      decide (f = s.font_bold) && !ar && decide (x = tableLeft l + padQ)
  | _ => false

/-- A table-row draw: regular left-aligned text at the description anchor.
Within the items-table trace exactly the wrapped description lines are drawn
this way. -/
def isRowCmd (l : LayoutConfig) (s : StyleConfig) : Cmd → Bool
  | .text f _ ar x _ _ =>
      decide (f = s.font_regular) && !ar && decide (x = tableLeft l + padQ)
  | _ => false

/-- The vertical position a text command paints at (0 for non-text). -/
def cmdY : Cmd → ℚ
  | .text _ _ _ _ y _ => y
  | .line _ y1 _ _ => y1
  | .showPage => 0

/-- One step of the header-before-rows scan: the flag records whether a
header has been drawn on the current page; a page break clears it, a header
sets it, and a row draw is acceptable only while it is set. -/
def scanStep (l : LayoutConfig) (s : StyleConfig) (acc : Bool × Bool) (c : Cmd) :
    Bool × Bool :=
  if isShowPage c then (acc.1, false)
  else if isHeaderCmd l s c then (acc.1, true)
  else if isRowCmd l s c then (acc.1 && acc.2, acc.2)
  else acc

/-- Scans a trace for the header-before-rows property. -/
def headedScan (l : LayoutConfig) (s : StyleConfig) (acc : Bool × Bool)
    (cs : List Cmd) : Bool × Bool :=
  cs.foldl (scanStep l s) acc

/-- The scan state of the trace accumulated so far. -/
def scanned (l : LayoutConfig) (s : StyleConfig) (st : GenState) : Bool × Bool :=
  headedScan l s (true, false) st.cmds

/-- Every row draw in the list is painted at or above the page-break
threshold. -/
def rowsOK (l : LayoutConfig) (s : StyleConfig) (cs : List Cmd) : Prop :=
  ∀ c ∈ cs, isRowCmd l s c = true → l.page_break_threshold ≤ cmdY c

/-- The command chunk emitted by renderTableHeader from cursor height y0. -/
def headerCmds (inv : Invoice) (l : LayoutConfig) (s : StyleConfig) (y0 : ℚ) :
    List Cmd :=
  [.text s.font_bold l.font_size_normal false (tableLeft l + padQ) (y0 - 5 * mmQ)
      (inv.t "service"),
   .text s.font_bold l.font_size_normal true (colQtyTextX l) (y0 - 5 * mmQ)
      (inv.t "quantity"),
   .text s.font_bold l.font_size_normal true (colUnitTextX l) (y0 - 5 * mmQ)
      (inv.t "unit_price"),
   .text s.font_bold l.font_size_normal true (colAmountTextX l) (y0 - 5 * mmQ)
      (inv.t "amount"),
   .line (tableLeft l) (y0 - 5 * mmQ - 4 * mmQ) (tableRight l) (y0 - 5 * mmQ - 4 * mmQ),
   .line (colDescEnd l) y0 (colDescEnd l) (y0 - 5 * mmQ - 4 * mmQ),
   .line (colQtyEnd l) y0 (colQtyEnd l) (y0 - 5 * mmQ - 4 * mmQ),
   .line (colUnitEnd l) y0 (colUnitEnd l) (y0 - 5 * mmQ - 4 * mmQ)]

/-- The command chunk emitted by drawTableLines for a segment between topY
and bottomY. -/
def tableLineCmds (l : LayoutConfig) (topY bottomY : ℚ) : List Cmd :=
  [.line (colDescEnd l) topY (colDescEnd l) (bottomY + 2 * mmQ),
   .line (colQtyEnd l) topY (colQtyEnd l) (bottomY + 2 * mmQ),
   .line (colUnitEnd l) topY (colUnitEnd l) (bottomY + 2 * mmQ)]

/-- The command chunk emitted by startNewPage when the previous page number
was pn: nothing on the very first page, otherwise the page break and the
page-number footer of page pn + 1. -/
def startNewPageCmds (inv : Invoice) (l : LayoutConfig) (s : StyleConfig)
    (pn : ℕ) : List Cmd :=
  if pn = 0 then []
  else [.showPage,
        .text s.font_regular l.font_size_small true (tableRight l)
          (l.margin_bottom / 2) (inv.t "page" ++ " " ++ toString (pn + 1))]

/-- The command chunk emitted by rowStep from a state with the given font
and cursor height. -/
def rowCmds (inv : Invoice) (l : LayoutConfig) (item : InvoiceItem)
    (ln : String) (firstLine : Bool) (f : String) (fs y : ℚ) : List Cmd :=
  .text f fs false (tableLeft l + padQ) y ln ::
  (if firstLine then
    [.text f fs true (colQtyTextX l) y (formatQuantity item.quantity item.unit),
     .text f fs true (colUnitTextX l) y (formatCurrency item.unit_price "€" inv.language),
     .text f fs true (colAmountTextX l) y (formatCurrency item.net_amount "€" inv.language)]
  else [])

/-! ## Concrete fixtures used by witnesses and counterexamples -/

/-- The default layout configuration. -/
def layoutDefault : LayoutConfig := {}

/-- The default style configuration. -/
def styleDefault : StyleConfig := {}

/-- A small concrete invoice: one item, German locale, VAT mode NONE. -/
def cInvA : Invoice :=
  { issuer := { address := { name := "BK THERAPY", street := "Augsburgerstraße 100",
                             postal_code := "86368", city := "Gersthofen" } },
    client := { address := { name := "Firma Beispiel GmbH" } },
    metadata := mkInvoiceMetadata 20000 "2025-001" .none .none .none .none "Rechnung" 14 [],
    items := [{ description := "Therapiestunde", quantity := 10, unit_price := 85 }],
    payment := { iban := "DE51 7206 9736 0002 5296 37" },
    vat_mode := .none, language := .de }

/-- A concrete invoice with mixed VAT rates including a zero rate. -/
def cInvB : Invoice :=
  { issuer := { address := { name := "A" } },
    client := { address := { name := "B" } },
    metadata := mkInvoiceMetadata 20000 "R2" .none .none .none .none "" 14 [],
    items := [{ description := "p", quantity := 1, unit_price := 100, vat_rate := 19 },
              { description := "q", quantity := 2, unit_price := 7/2, vat_rate := 7 },
              { description := "r", quantity := 1, unit_price := 50, vat_rate := 0 },
              { description := "s", quantity := 3, unit_price := 1/8, vat_rate := 19 }],
    payment := {}, vat_mode := .exclusive, language := .de }

/-- A concrete invoice with two half-cent items and a nonzero VAT rate, but
VAT mode NONE. -/
def cInvC : Invoice :=
  { issuer := { address := { name := "A" } },
    client := { address := { name := "B" } },
    metadata := mkInvoiceMetadata 20000 "R3" .none .none .none .none "" 14 [],
    items := [{ description := "p", quantity := 1, unit_price := 1/200, vat_rate := 19 },
              { description := "q", quantity := 1, unit_price := 1/200, vat_rate := 19 }],
    payment := {}, vat_mode := .none, language := .de }

/-- A concrete invoice with VAT mode NONE but a strictly positive total VAT. -/
def cInvD : Invoice :=
  { issuer := { address := { name := "A" } },
    client := { address := { name := "B" } },
    metadata := mkInvoiceMetadata 20000 "R5" .none .none .none .none "" 14 [],
    items := [{ description := "p", quantity := 1, unit_price := 100, vat_rate := 19 }],
    payment := {}, vat_mode := .none, language := .de }

/-- A concrete invoice with no items at all. -/
def cInvEmpty : Invoice :=
  { issuer := { address := { name := "A" } },
    client := { address := { name := "B" } },
    metadata := mkInvoiceMetadata 20000 "R4" .none .none .none .none "" 14 [],
    items := [], payment := {} }

/-- A generator state on page 1 with an open cursor at mid page. -/
def cSt0 : GenState :=
  { font := "Helvetica", fontSize := 12, y := 600, pageNumber := 1,
    tableTopY := 0, tableBottomY := 0, cmds := [] }

/-- A generator state whose cursor sits at 50 mm, between the page-break
threshold of 40 mm and threshold plus bottom margin. -/
def cSt6 : GenState :=
  { font := "Helvetica", fontSize := 9, y := 50 * mmQ, pageNumber := 1,
    tableTopY := 50 * mmQ, tableBottomY := 0, cmds := [] }

/-- A one-word item. -/
def cItem6 : InvoiceItem := { description := "x", quantity := 1, unit_price := 10 }

/-- An address whose extra lines contain an empty string. -/
def cAddr8 : Address := { name := "X", additional_lines := [""] }

/-- A well-formed address with nonblank fields and a nonempty extra line. -/
def cAddr8b : Address :=
  { name := "X", street := "Hauptstr. 1", postal_code := "86368",
    city := "Gersthofen", country := "Deutschland",
    additional_lines := ["Gebäude 5"] }

/-! ## Claim C1 -/

/-- C1: for every InvoiceItem, net_amount is quantity times unit price
quantized to exactly two fractional digits with round-half-up, vat_amount is
net times rate over 100 quantized the same way, and gross_amount is exactly
net plus vat with no further rounding. -/
theorem c1_item_amounts (it : InvoiceItem) :
    (∃ n : ℤ, it.net_amount = (n : ℚ) / 100 ∧
        rhuSpec (it.quantity * it.unit_price * 100) n) ∧
    (∃ m : ℤ, it.vat_amount = (m : ℚ) / 100 ∧
        rhuSpec (it.net_amount * it.vat_rate / 100 * 100) m) ∧
    it.gross_amount = it.net_amount + it.vat_amount := by
  refine ⟨⟨roundHalfUp (it.quantity * it.unit_price * 100), rfl, roundHalfUp_spec _⟩,
          ⟨roundHalfUp (it.net_amount * it.vat_rate / 100 * 100), rfl, roundHalfUp_spec _⟩,
          rfl⟩

/-! ## Claim C2 -/

/-- C2: subtotal is the sum of the per-item already-rounded net amounts,
total_vat of the per-item already-rounded VAT amounts, and total is the
subtotal when the VAT mode is NONE (nonzero per-item rates are ignored
there) and subtotal plus total VAT otherwise; the concrete conjuncts show
totals are sums of rounded values (0.005 twice sums to 0.02, while rounding
the raw sum would give 0.01) and that NONE discards a strictly positive
total VAT. -/
theorem c2_invoice_totals (inv : Invoice) :
    inv.subtotal = (inv.items.map InvoiceItem.net_amount).sum ∧
    inv.total_vat = (inv.items.map InvoiceItem.vat_amount).sum ∧
    (inv.vat_mode = VATMode.none → inv.total = inv.subtotal) ∧
    (inv.vat_mode ≠ VATMode.none → inv.total = inv.subtotal + inv.total_vat) ∧
    cInvC.total = 1 / 50 ∧
    quantize2 ((cInvC.items.map (fun it => it.quantity * it.unit_price)).sum) = 1 / 100 ∧
    0 < cInvD.total_vat ∧ cInvD.total = cInvD.subtotal := by
  refine ⟨rfl, rfl, ?_, ?_, ?_, ?_, ?_, ?_⟩
  · intro h; simp [Invoice.total, h]
  · intro h; simp [Invoice.total, h]
  · norm_num [cInvC, Invoice.total, Invoice.subtotal, InvoiceItem.net_amount,
      quantize2, roundHalfUp]
  · norm_num [cInvC, quantize2, roundHalfUp]
  · norm_num [cInvD, Invoice.total_vat, InvoiceItem.vat_amount,
      InvoiceItem.net_amount, quantize2, roundHalfUp]
  · norm_num [cInvD, Invoice.total]

/-- Witness for C2 at a concrete invoice with VAT mode NONE. -/
theorem c2_witness : cInvA.vat_mode = VATMode.none ∧ cInvA.total = cInvA.subtotal :=
  ⟨rfl, (c2_invoice_totals cInvA).2.2.1 rfl⟩

/-! ## Claim C9 -/

/-- C9: after construction with a non-negative due-day count, an unset
service date equals the issue date, an unset issue date defaults to today,
and the due date is the issue date plus due_days calendar days. -/
theorem c9_metadata_dates (today : ℤ) (number : String)
    (date service_date sps spe : Option ℤ) (title : String) (dd : ℤ)
    (notes : List String) (hdd : 0 ≤ dd) :
    (service_date = .none →
      (mkInvoiceMetadata today number date service_date sps spe title dd notes).service_date =
      (mkInvoiceMetadata today number date service_date sps spe title dd notes).date) ∧
    (date = .none →
      (mkInvoiceMetadata today number date service_date sps spe title dd notes).date = today) ∧
    (mkInvoiceMetadata today number date service_date sps spe title dd notes).due_date =
      (mkInvoiceMetadata today number date service_date sps spe title dd notes).date + dd := by
  refine ⟨fun h => ?_, fun h => ?_, rfl⟩
  · subst h; rfl
  · subst h; rfl

/-- Witness for C9 at concrete arguments with both dates unset. -/
theorem c9_witness :
    (0 : ℤ) ≤ 14 ∧
    (mkInvoiceMetadata 20000 "R1" .none .none .none .none "" 14 []).service_date =
      (mkInvoiceMetadata 20000 "R1" .none .none .none .none "" 14 []).date ∧
    (mkInvoiceMetadata 20000 "R1" .none .none .none .none "" 14 []).due_date = 20014 := by
  have h := c9_metadata_dates 20000 "R1" .none .none .none .none "" 14 [] (by decide)
  exact ⟨by decide, h.1 rfl, by rw [h.2.2]; rfl⟩

/-! ## Claim C10 -/

/-- C10: the translation lookup is a total function; every Language value is
present in TRANSLATIONS (so the German fallback for an unknown language can
never be exercised), and a key absent from the selected table is returned
unchanged while a present key yields its translation. -/
theorem c10_translation_total (inv : Invoice) (key : String) :
    (lookupLang TRANSLATIONS inv.language).isSome = true ∧
    (lookupStr inv.selectedTable key = .none → inv.t key = key) ∧
    (∀ v, lookupStr inv.selectedTable key = some v → inv.t key = v) := by
  refine ⟨?_, fun h => ?_, fun v h => ?_⟩
  · cases hl : inv.language <;> simp [TRANSLATIONS, lookupLang, hl]
  · unfold Invoice.t; rw [h]; rfl
  · unfold Invoice.t; rw [h]; rfl

/-- Witness for C10: a key absent from the table comes back unchanged. -/
theorem c10_witness :
    lookupStr cInvA.selectedTable "zzz" = .none ∧ cInvA.t "zzz" = "zzz" :=
  ⟨by decide, (c10_translation_total cInvA "zzz").2.1 (by decide)⟩

/-! ## Claim C3 -/

theorem floor_natCast_div_hundred (m : ℕ) : ⌊(m : ℚ) / 100⌋ = ((m / 100 : ℕ) : ℤ) := by
  have h100 : ((m : ℚ)) = 100 * ((m / 100 : ℕ) : ℚ) + ((m % 100 : ℕ) : ℚ) := by
    exact_mod_cast (Nat.div_add_mod m 100).symm
  have hmod : ((m % 100 : ℕ) : ℚ) < 100 := by
    exact_mod_cast Nat.mod_lt m (by norm_num)
  have hmod0 : (0 : ℚ) ≤ ((m % 100 : ℕ) : ℚ) := by positivity
  have hc : ((((m / 100 : ℕ) : ℤ)) : ℚ) = ((m / 100 : ℕ) : ℚ) := Int.cast_natCast _
  rw [Int.floor_eq_iff]
  constructor
  · rw [le_div_iff₀ (by norm_num : (0 : ℚ) < 100), hc]
    linarith
  · rw [div_lt_iff₀ (by norm_num : (0 : ℚ) < 100), hc]
    linarith

theorem formatCurrency_digits (m : ℕ) :
    ((⌊|((m : ℚ) / 100)|⌋).toNat = m / 100) ∧
    ((⌊(|((m : ℚ) / 100)| - ⌊|((m : ℚ) / 100)|⌋) * 100⌋).toNat = m % 100) := by
  have hnn : (0 : ℚ) ≤ (m : ℚ) / 100 := by positivity
  have habs : |((m : ℚ) / 100)| = (m : ℚ) / 100 := abs_of_nonneg hnn
  have hfl := floor_natCast_div_hundred m
  refine ⟨by rw [habs, hfl]; exact Int.toNat_natCast _, ?_⟩
  rw [habs, hfl]
  have hval : ((m : ℚ) / 100 - (((m / 100 : ℕ) : ℤ) : ℚ)) * 100 = ((m % 100 : ℕ) : ℚ) := by
    have h100 : ((m : ℚ)) = 100 * ((m / 100 : ℕ) : ℚ) + ((m % 100 : ℕ) : ℚ) := by
      exact_mod_cast (Nat.div_add_mod m 100).symm
    have hc : ((((m / 100 : ℕ) : ℤ)) : ℚ) = ((m / 100 : ℕ) : ℚ) := Int.cast_natCast _
    rw [hc]
    linear_combination h100
  rw [hval, Int.floor_natCast, Int.toNat_natCast]

/-- Evaluation of formatCurrency at a non-negative quantized value m/100. -/
theorem formatCurrency_nonneg_eval (q : ℚ) (m : ℕ) (c : String)
    (hq : quantize2 q = (m : ℚ) / 100) :
    formatCurrency q c .de =
      groupDigits (m / 100) '.' ++ "," ++ twoDigits (m % 100) ++ " " ++ c ∧
    formatCurrency q c .en =
      c ++ groupDigits (m / 100) ',' ++ "." ++ twoDigits (m % 100) := by
  have hnn : (0 : ℚ) ≤ (m : ℚ) / 100 := by positivity
  have hlt : ¬((m : ℚ) / 100 < 0) := not_lt.mpr hnn
  obtain ⟨h1, h2⟩ := formatCurrency_digits m
  constructor <;>
    simp only [formatCurrency, hq, if_neg hlt, h1, h2, String.append_empty,
      String.empty_append]

/-- Evaluation of formatCurrency at a negative quantized value, minus m/100. -/
theorem formatCurrency_neg_eval (q : ℚ) (m : ℕ) (c : String) (hm : 0 < m)
    (hq : quantize2 q = -((m : ℚ) / 100)) :
    formatCurrency q c .de =
      "-" ++ groupDigits (m / 100) '.' ++ "," ++ twoDigits (m % 100) ++ " " ++ c ∧
    formatCurrency q c .en =
      c ++ "-" ++ groupDigits (m / 100) ',' ++ "." ++ twoDigits (m % 100) := by
  have hpos : (0 : ℚ) < (m : ℚ) / 100 := by
    have : (0 : ℚ) < (m : ℚ) := by exact_mod_cast hm
    positivity
  have hlt : -((m : ℚ) / 100) < 0 := by linarith
  have habs : |(-((m : ℚ) / 100))| = |((m : ℚ) / 100)| := abs_neg _
  obtain ⟨h1, h2⟩ := formatCurrency_digits m
  constructor <;>
    simp only [formatCurrency, hq, if_pos hlt, habs, h1, h2]

/-- C3: format_currency quantizes to two decimals with round-half-up before
formatting; the DE locale groups thousands with a dot, uses a comma before
the two fraction digits and puts the symbol after the number, with the minus
sign leading for negative amounts, and other locales put the symbol first
with the separators swapped; witnessed by the two concrete spec examples and
the EN rendering of the same amount. -/
theorem c3_format_currency :
    (∀ (q : ℚ) (c : String) (loc : Language),
      formatCurrency q c loc = formatCurrency (quantize2 q) c loc) ∧
    formatCurrency ((2469 : ℚ) / 2) "€" .de = "1.234,50 €" ∧
    formatCurrency (-((401 : ℚ) / 200)) "€" .de = "-2,01 €" ∧
    formatCurrency ((2469 : ℚ) / 2) "€" .en = "€1,234.50" := by
  refine ⟨fun q c loc => ?_, ?_, ?_, ?_⟩
  · simp only [formatCurrency, quantize2_idem]
  · rw [(formatCurrency_nonneg_eval ((2469 : ℚ) / 2) 123450 "€" (by
      norm_num [quantize2, roundHalfUp])).1]
    decide
  · rw [(formatCurrency_neg_eval (-((401 : ℚ) / 200)) 201 "€" (by norm_num) (by
      norm_num [quantize2, roundHalfUp])).1]
    decide
  · rw [(formatCurrency_nonneg_eval ((2469 : ℚ) / 2) 123450 "€" (by
      norm_num [quantize2, roundHalfUp])).2]
    decide

/-! ## Claim C4 -/

theorem replaceCommaDot_idem (s : String) :
    replaceCommaDot (replaceCommaDot s) = replaceCommaDot s := by
  unfold replaceCommaDot
  rw [show (String.mk (s.data.map fun c => if c = ',' then '.' else c)).data
        = s.data.map (fun c => if c = ',' then '.' else c) from rfl,
      List.map_map]
  have hff : ((fun c => if c = ',' then '.' else c) ∘ (fun c => if c = ',' then '.' else c))
      = (fun c : Char => if c = ',' then '.' else c) := by
    funext c
    by_cases h : c = ',' <;> simp [h, Function.comp]
  rw [hff]

/-- C4 counterexample: the helper to_decimal silently coerces the malformed
string abc (rejected by the Decimal constructor) to the default zero instead
of failing, refuting the claim that malformed input is never silently
coerced to zero. -/
theorem c4_counterexample :
    parseDecimal "abc" = .none ∧ to_decimal "abc" 0 = 0 :=
  ⟨rfl, rfl⟩

/-- C4 amended: in the web entry point, a string parses to the same value
whether it uses a comma or a dot as the fractional separator, and a
malformed string makes the conversion fail so that generation aborts before
layout; the raised error is the stringified InvalidOperation, a constant
that does not identify the offending input or field; the helper to_decimal
silently coerces malformed input to its default instead of failing. -/
theorem c4_numeric_input :
    (∀ s : String, (appToDecimal s).toOption = (appToDecimal (replaceCommaDot s)).toOption) ∧
    appToDecimal "1,5" = appToDecimal "1.5" ∧
    appToDecimal "1.5" = .ok (3 / 2) ∧
    appToDecimal "abc" = .error "[<class \x27decimal.ConversionSyntax\x27>]" ∧
    appToDecimal "abc" = appToDecimal "1.2.3" ∧
    (∀ s q, appToDecimal s = .ok q → parseDecimal (replaceCommaDot s) = some q) ∧
    to_decimal "abc" 0 = 0 := by
  refine ⟨fun s => ?_, rfl, ?_, rfl, rfl, fun s q h => ?_, rfl⟩
  · unfold appToDecimal
    rw [replaceCommaDot_idem]
  · have h : appToDecimal "1.5" =
        .ok ((digitsToNat ['1'] : ℚ) + (digitsToNat ['5'] : ℚ) / 10 ^ (['5'] : List Char).length) := rfl
    have d1 : digitsToNat ['1'] = 1 := rfl
    have d5 : digitsToNat ['5'] = 5 := rfl
    rw [h, d1, d5]
    norm_num
  · unfold appToDecimal at h
    cases hp : parseDecimal (replaceCommaDot s) with
    | none => rw [hp] at h; exact absurd h (by simp)
    | some v => rw [hp] at h; simp at h; rw [h]

/-- Witness for C4: a comma-separated literal parsed through the web entry
point succeeds, and the parsed value is recoverable from the parser. -/
theorem c4_witness :
    appToDecimal "2,5" = .ok ((digitsToNat ['2'] : ℚ) + (digitsToNat ['5'] : ℚ) / 10 ^ (['5'] : List Char).length) ∧
    parseDecimal (replaceCommaDot "2,5") = some ((digitsToNat ['2'] : ℚ) + (digitsToNat ['5'] : ℚ) / 10 ^ (['5'] : List Char).length) :=
  ⟨rfl, (c4_numeric_input).2.2.2.2.2.1 "2,5" _ rfl⟩

/-! ## Claim C8 -/

theorem stripList_eq_nil_iff (l : List Char) :
    stripList l = [] ↔ l.all pyIsSpace = true := by
  unfold stripList
  rw [List.reverse_eq_nil_iff, List.dropWhile_eq_nil_iff]
  constructor
  · intro h
    rw [List.all_eq_true]
    intro x hx
    rw [← List.takeWhile_append_dropWhile (p := pyIsSpace) (l := l)] at hx
    rcases List.mem_append.mp hx with h3 | h3
    · exact List.mem_takeWhile_imp h3
    · exact h x (List.mem_reverse.mpr h3)
  · intro h x hx
    exact List.all_eq_true.mp h x
      ((List.dropWhile_sublist (p := pyIsSpace)).subset (List.mem_reverse.mp hx))

theorem stripStr_eq_empty_iff (s : String) :
    stripStr s = "" ↔ s.data.all pyIsSpace = true := by
  unfold stripStr
  constructor
  · intro h
    exact (stripList_eq_nil_iff _).mp (congrArg String.data h)
  · intro h
    have h2 := (stripList_eq_nil_iff s.data).mpr h
    rw [h2]

/-- C8 counterexample: an Address whose extra lines contain an empty string
produces a blank display line, refuting the claim that to_lines contains
only non-empty strings for every Address. -/
theorem c8_counterexample : "" ∈ Address.to_lines cAddr8 := by decide

/-- C8 amended: to_lines never produces a blank line from the named fields
as long as the postal-code/city pair is not whitespace-only (Python
whitespace set) when present, and the extra lines are passed through
verbatim, so all lines are non-empty whenever the extra lines are; the
all-empty address with no extra lines yields the empty sequence. -/
theorem c8_to_lines (a : Address)
    (hextra : ∀ t ∈ a.additional_lines, t ≠ "")
    (hpc : a.postal_code ≠ "" ∨ a.city ≠ "" →
      ¬((a.postal_code ++ " " ++ a.city).data.all pyIsSpace = true)) :
    (∀ t ∈ a.to_lines, t ≠ "") ∧
    Address.to_lines { name := "X" } = [] := by
  refine ⟨fun t ht => ?_, rfl⟩
  unfold Address.to_lines at ht
  simp only [List.mem_append] at ht
  rcases ht with ((h | h) | h) | h
  · by_cases hs : a.street ≠ ""
    · rw [if_pos hs] at h
      simp only [List.mem_singleton] at h
      subst h
      exact hs
    · rw [if_neg hs] at h
      simp at h
  · by_cases hb : a.postal_code ≠ "" ∨ a.city ≠ ""
    · rw [if_pos hb] at h
      simp only [List.mem_singleton] at h
      subst h
      intro he
      exact hpc hb ((stripStr_eq_empty_iff _).mp he)
    · rw [if_neg hb] at h
      simp at h
  · by_cases hcn : a.country ≠ ""
    · rw [if_pos hcn] at h
      simp only [List.mem_singleton] at h
      subst h
      exact hcn
    · rw [if_neg hcn] at h
      simp at h
  · exact hextra t h

/-- Witness for C8 on a fully populated address. -/
theorem c8_witness :
    (∀ t ∈ cAddr8b.additional_lines, t ≠ "") ∧ (∀ t ∈ cAddr8b.to_lines, t ≠ "") :=
  ⟨by decide, (c8_to_lines cAddr8b (by decide) (by decide)).1⟩

/-! ## Claim C5 -/

theorem lookupD_addVat_self (s : List (ℚ × ℚ)) (r a : ℚ) :
    lookupD (addVat s r a) r = lookupD s r + a := by
  induction s with
  | nil => simp [addVat, lookupD]
  | cons hd t ih =>
      obtain ⟨k, v⟩ := hd
      by_cases h : k = r
      · simp [addVat, lookupD, h]
      · simp [addVat, lookupD, h, ih]

theorem lookupD_addVat_ne (s : List (ℚ × ℚ)) (r a rr : ℚ) (h : rr ≠ r) :
    lookupD (addVat s r a) rr = lookupD s rr := by
  induction s with
  | nil => simp [addVat, lookupD, Ne.symm h]
  | cons hd t ih =>
      obtain ⟨k, v⟩ := hd
      by_cases hk : k = r
      · subst hk
        simp [addVat, lookupD, Ne.symm h]
      · simp [addVat, lookupD, hk, ih]

theorem sumVals_addVat (s : List (ℚ × ℚ)) (r a : ℚ) :
    ((addVat s r a).map Prod.snd).sum = (s.map Prod.snd).sum + a := by
  induction s with
  | nil => simp [addVat]
  | cons hd t ih =>
      obtain ⟨k, v⟩ := hd
      by_cases h : k = r <;> simp [addVat, h, ih] <;> ring

theorem mem_keys_addVat (s : List (ℚ × ℚ)) (r a rr : ℚ) :
    rr ∈ (addVat s r a).map Prod.fst ↔ rr ∈ s.map Prod.fst ∨ rr = r := by
  induction s with
  | nil => simp [addVat]
  | cons hd t ih =>
      obtain ⟨k, v⟩ := hd
      by_cases h : k = r
      · subst h
        simp [addVat]
        tauto
      · simp [addVat, h, ih]
        tauto

theorem sumVals_foldl_vatStep (items : List InvoiceItem) :
    ∀ s : List (ℚ × ℚ), ((items.foldl vatStep s).map Prod.snd).sum =
      (s.map Prod.snd).sum +
      ((items.filter (fun it => decide (0 < it.vat_rate))).map InvoiceItem.vat_amount).sum := by
  induction items with
  | nil => intro s; simp
  | cons it rest ih =>
      intro s
      rw [List.foldl_cons, ih]
      unfold vatStep
      by_cases h : 0 < it.vat_rate
      · rw [if_pos h, sumVals_addVat]
        simp [List.filter_cons, h]
        ring
      · rw [if_neg h]
        simp [List.filter_cons, h]

theorem lookupD_foldl_vatStep (r : ℚ) (hr : 0 < r) (items : List InvoiceItem) :
    ∀ s : List (ℚ × ℚ), lookupD (items.foldl vatStep s) r =
      lookupD s r +
      ((items.filter (fun it => decide (it.vat_rate = r))).map InvoiceItem.vat_amount).sum := by
  induction items with
  | nil => intro s; simp
  | cons it rest ih =>
      intro s
      rw [List.foldl_cons, ih]
      unfold vatStep
      by_cases hpos : 0 < it.vat_rate
      · rw [if_pos hpos]
        by_cases heq : it.vat_rate = r
        · rw [heq, lookupD_addVat_self]
          simp [List.filter_cons, heq]
          ring
        · rw [lookupD_addVat_ne _ _ _ _ (Ne.symm heq)]
          simp [List.filter_cons, heq]
      · rw [if_neg hpos]
        have hne : ¬(it.vat_rate = r) := fun hh => hpos (hh ▸ hr)
        simp [List.filter_cons, hne]

theorem mem_keys_foldl_vatStep (r : ℚ) (items : List InvoiceItem) :
    ∀ s : List (ℚ × ℚ), (r ∈ (items.foldl vatStep s).map Prod.fst) ↔
      r ∈ s.map Prod.fst ∨ ∃ it ∈ items, it.vat_rate = r ∧ 0 < it.vat_rate := by
  induction items with
  | nil => intro s; simp
  | cons it rest ih =>
      intro s
      rw [List.foldl_cons, ih]
      unfold vatStep
      by_cases hpos : 0 < it.vat_rate
      · rw [if_pos hpos, mem_keys_addVat]
        constructor
        · rintro ((h | h) | ⟨x, hx, h1, h2⟩)
          · exact Or.inl h
          · exact Or.inr ⟨it, List.mem_cons_self _ _, h.symm, hpos⟩
          · exact Or.inr ⟨x, List.mem_cons_of_mem _ hx, h1, h2⟩
        · rintro (h | ⟨x, hx, h1, h2⟩)
          · exact Or.inl (Or.inl h)
          · rcases List.mem_cons.mp hx with rfl | hx
            · exact Or.inl (Or.inr h1.symm)
            · exact Or.inr ⟨x, hx, h1, h2⟩
      · rw [if_neg hpos]
        constructor
        · rintro (h | ⟨x, hx, h1, h2⟩)
          · exact Or.inl h
          · exact Or.inr ⟨x, List.mem_cons_of_mem _ hx, h1, h2⟩
        · rintro (h | ⟨x, hx, h1, h2⟩)
          · exact Or.inl h
          · rcases List.mem_cons.mp hx with rfl | hx
            · exact absurd h2 hpos
            · exact Or.inr ⟨x, hx, h1, h2⟩

theorem sum_map_split_pos (items : List InvoiceItem) :
    ((items.map InvoiceItem.vat_amount).sum) =
      ((items.filter (fun it => decide (0 < it.vat_rate))).map InvoiceItem.vat_amount).sum +
      ((items.filter (fun it => !decide (0 < it.vat_rate))).map InvoiceItem.vat_amount).sum := by
  induction items with
  | nil => simp
  | cons it rest ih =>
      by_cases h : 0 < it.vat_rate <;> simp [List.filter_cons, h, ih] <;> ring

theorem vat_amount_nonpos_rate (it : InvoiceItem) (h0 : 0 ≤ it.vat_rate)
    (h : ¬(0 < it.vat_rate)) : it.vat_amount = 0 := by
  have hz : it.vat_rate = 0 := le_antisymm (not_lt.mp h) h0
  unfold InvoiceItem.vat_amount
  rw [hz]
  simp [quantize2_zero]

/-- C5: for an invoice with non-negative VAT rates, the keys of vat_summary
are exactly the positive rates occurring among the items, each key maps to
the sum of vat_amount over the items with that rate, and the values of
vat_summary sum exactly to total_vat. -/
theorem c5_vat_summary (inv : Invoice) (h : ∀ it ∈ inv.items, 0 ≤ it.vat_rate) :
    (∀ r : ℚ, r ∈ inv.vat_summary.map Prod.fst ↔
      0 < r ∧ ∃ it ∈ inv.items, it.vat_rate = r) ∧
    (∀ r : ℚ, 0 < r → lookupD inv.vat_summary r =
      ((inv.items.filter (fun it => decide (it.vat_rate = r))).map InvoiceItem.vat_amount).sum) ∧
    (inv.vat_summary.map Prod.snd).sum = inv.total_vat := by
  refine ⟨fun r => ?_, fun r hr => ?_, ?_⟩
  · unfold Invoice.vat_summary
    rw [mem_keys_foldl_vatStep]
    constructor
    · rintro (hmem | ⟨it, hit, h1, h2⟩)
      · simp at hmem
      · exact ⟨by rw [← h1]; exact h2, it, hit, h1⟩
    · rintro ⟨hr, it, hit, h1⟩
      exact Or.inr ⟨it, hit, h1, by rw [h1]; exact hr⟩
  · unfold Invoice.vat_summary
    rw [lookupD_foldl_vatStep r hr]
    simp [lookupD]
  · unfold Invoice.vat_summary
    rw [sumVals_foldl_vatStep]
    simp only [List.map_nil, List.sum_nil, zero_add]
    unfold Invoice.total_vat
    rw [sum_map_split_pos inv.items]
    have hz : ((inv.items.filter (fun it => !decide (0 < it.vat_rate))).map
        InvoiceItem.vat_amount).sum = 0 := by
      apply List.sum_eq_zero
      intro x hx
      rcases List.mem_map.mp hx with ⟨it, hit, rfl⟩
      have hmem := List.mem_filter.mp hit
      have hnp : ¬(0 < it.vat_rate) := by simpa using hmem.2
      exact vat_amount_nonpos_rate it (h it hmem.1) hnp
    rw [hz]
    ring

/-- Witness for C5 on an invoice with rates 19, 7, 0 and 19. -/
theorem c5_witness :
    (∀ it ∈ cInvB.items, 0 ≤ it.vat_rate) ∧
    (cInvB.vat_summary.map Prod.snd).sum = cInvB.total_vat := by
  have hyp : ∀ it ∈ cInvB.items, 0 ≤ it.vat_rate := by
    intro it hit
    simp only [cInvB, List.mem_cons, List.not_mem_nil, or_false] at hit
    rcases hit with rfl | rfl | rfl | rfl <;> norm_num
  exact ⟨hyp, (c5_vat_summary cInvB hyp).2.2⟩

/-! ## Claim C6: scan-step and record lemmas -/

theorem headedScan_append (l : LayoutConfig) (s : StyleConfig) (acc : Bool × Bool)
    (a b : List Cmd) :
    headedScan l s acc (a ++ b) = headedScan l s (headedScan l s acc a) b :=
  List.foldl_append _ _ _ _

theorem scanStep_rightText (l : LayoutConfig) (s : StyleConfig) (acc : Bool × Bool)
    (f : String) (sz x y : ℚ) (txt : String) :
    scanStep l s acc (.text f sz true x y txt) = acc := by
  simp [scanStep, isShowPage, isHeaderCmd, isRowCmd]

theorem scanStep_lineCmd (l : LayoutConfig) (s : StyleConfig) (acc : Bool × Bool)
    (a b c d : ℚ) :
    scanStep l s acc (.line a b c d) = acc := by
  simp [scanStep, isShowPage, isHeaderCmd, isRowCmd]

theorem scanStep_showPage (l : LayoutConfig) (s : StyleConfig) (acc : Bool × Bool) :
    scanStep l s acc .showPage = (acc.1, false) := by
  simp [scanStep, isShowPage]

theorem scanStep_boldLeft (l : LayoutConfig) (s : StyleConfig) (acc : Bool × Bool)
    (sz y : ℚ) (txt : String) :
    scanStep l s acc (.text s.font_bold sz false (tableLeft l + padQ) y txt) =
      (acc.1, true) := by
  simp [scanStep, isShowPage, isHeaderCmd]

theorem scanStep_leftText (l : LayoutConfig) (s : StyleConfig) (acc : Bool × Bool)
    (h : acc.2 = true) (f : String) (sz y : ℚ) (txt : String) :
    scanStep l s acc (.text f sz false (tableLeft l + padQ) y txt) = (acc.1, true) := by
  obtain ⟨a1, a2⟩ := acc
  simp only at h
  subst h
  unfold scanStep
  rw [show isShowPage (.text f sz false (tableLeft l + padQ) y txt) = false from rfl]
  by_cases hh : isHeaderCmd l s (.text f sz false (tableLeft l + padQ) y txt)
  · simp [hh]
  · simp only [Bool.false_eq_true, if_false, hh]
    by_cases hr : isRowCmd l s (.text f sz false (tableLeft l + padQ) y txt)
    · simp [hr]
    · simp [hr]

theorem headedScan_headerCmds (l : LayoutConfig) (s : StyleConfig) (inv : Invoice)
    (acc : Bool × Bool) (y0 : ℚ) :
    headedScan l s acc (headerCmds inv l s y0) = (acc.1, true) := by
  simp [headedScan, headerCmds, scanStep_boldLeft, scanStep_rightText, scanStep_lineCmd]

theorem headedScan_tableLineCmds (l : LayoutConfig) (s : StyleConfig)
    (acc : Bool × Bool) (topY bottomY : ℚ) :
    headedScan l s acc (tableLineCmds l topY bottomY) = acc := by
  simp [headedScan, tableLineCmds, scanStep_lineCmd]

theorem headedScan_startNewPageCmds_fst (l : LayoutConfig) (s : StyleConfig)
    (inv : Invoice) (acc : Bool × Bool) (pn : ℕ) :
    (headedScan l s acc (startNewPageCmds inv l s pn)).1 = acc.1 := by
  unfold startNewPageCmds
  by_cases h : pn = 0
  · simp [h, headedScan]
  · simp [h, headedScan, scanStep_showPage, scanStep_rightText]

theorem drawTableLines_eq (l : LayoutConfig) (st : GenState) :
    drawTableLines l st =
      { st with cmds := st.cmds ++ tableLineCmds l st.tableTopY st.tableBottomY } := by
  simp [drawTableLines, emit, tableLineCmds, GenState.mk.injEq, List.append_assoc]

theorem renderTableHeader_eq (inv : Invoice) (l : LayoutConfig) (s : StyleConfig)
    (st : GenState) :
    renderTableHeader inv l s st =
      { st with
        font := s.font_regular
        fontSize := l.font_size_normal
        y := st.y - 5 * mmQ - 4 * mmQ - 5 * mmQ
        tableTopY := st.y - 5 * mmQ - 4 * mmQ - 5 * mmQ + 5 * mmQ
        cmds := st.cmds ++ headerCmds inv l s st.y } := by
  simp [renderTableHeader, drawString, drawRightString, setCanvasFont, emit,
    headerCmds, GenState.mk.injEq, List.append_assoc]

theorem startNewPage_eq (inv : Invoice) (l : LayoutConfig) (s : StyleConfig)
    (st : GenState) :
    startNewPage inv l s st =
      if st.pageNumber = 0 then
        { st with pageNumber := st.pageNumber + 1, y := pageHeight - l.margin_top }
      else
        { st with
          font := s.font_regular
          fontSize := l.font_size_small
          pageNumber := st.pageNumber + 1
          y := pageHeight - l.margin_top
          cmds := st.cmds ++ startNewPageCmds inv l s st.pageNumber } := by
  by_cases h : st.pageNumber = 0
  · simp [startNewPage, h, startNewPageCmds]
  · have hpos : st.pageNumber > 0 := Nat.pos_of_ne_zero h
    have hgt : st.pageNumber + 1 > 1 := by omega
    simp [startNewPage, renderPageNumber, drawRightString, setCanvasFont, emit,
      startNewPageCmds, h, hpos, hgt, GenState.mk.injEq]

/-! ## Claim C6: rowsOK and state-update lemmas -/

theorem isRowCmd_line (l : LayoutConfig) (s : StyleConfig) (a b c d : ℚ) :
    isRowCmd l s (.line a b c d) = false := rfl

theorem isRowCmd_showPage (l : LayoutConfig) (s : StyleConfig) :
    isRowCmd l s .showPage = false := rfl

theorem isRowCmd_rightText (l : LayoutConfig) (s : StyleConfig) (f : String)
    (sz x y : ℚ) (txt : String) :
    isRowCmd l s (.text f sz true x y txt) = false := by
  simp [isRowCmd]

theorem isRowCmd_bold (l : LayoutConfig) (s : StyleConfig)
    (hf : s.font_regular ≠ s.font_bold) (sz x y : ℚ) (txt : String) :
    isRowCmd l s (.text s.font_bold sz false x y txt) = false := by
  simp only [isRowCmd]
  rw [decide_eq_false (fun hh => hf hh.symm)]
  simp

theorem rowsOK_append (l : LayoutConfig) (s : StyleConfig) (a b : List Cmd) :
    rowsOK l s (a ++ b) ↔ rowsOK l s a ∧ rowsOK l s b := by
  unfold rowsOK
  constructor
  · intro h
    exact ⟨fun c hc => h c (List.mem_append.mpr (Or.inl hc)),
           fun c hc => h c (List.mem_append.mpr (Or.inr hc))⟩
  · rintro ⟨h1, h2⟩ c hc hrc
    rcases List.mem_append.mp hc with hh | hh
    · exact h1 c hh hrc
    · exact h2 c hh hrc

theorem rowsOK_of_no_rows (l : LayoutConfig) (s : StyleConfig) (cs : List Cmd)
    (h : ∀ c ∈ cs, isRowCmd l s c = false) : rowsOK l s cs := by
  intro c hc hrc
  rw [h c hc] at hrc
  cases hrc

theorem rowsOK_headerCmds (l : LayoutConfig) (s : StyleConfig) (inv : Invoice)
    (hf : s.font_regular ≠ s.font_bold) (y0 : ℚ) :
    rowsOK l s (headerCmds inv l s y0) := by
  apply rowsOK_of_no_rows
  intro c hc
  simp only [headerCmds, List.mem_cons, List.not_mem_nil, or_false] at hc
  rcases hc with rfl | rfl | rfl | rfl | rfl | rfl | rfl | rfl
  · exact isRowCmd_bold l s hf _ _ _ _
  · exact isRowCmd_rightText l s _ _ _ _ _
  · exact isRowCmd_rightText l s _ _ _ _ _
  · exact isRowCmd_rightText l s _ _ _ _ _
  · exact isRowCmd_line l s _ _ _ _
  · exact isRowCmd_line l s _ _ _ _
  · exact isRowCmd_line l s _ _ _ _
  · exact isRowCmd_line l s _ _ _ _

theorem rowsOK_tableLineCmds (l : LayoutConfig) (s : StyleConfig) (ty by2 : ℚ) :
    rowsOK l s (tableLineCmds l ty by2) := by
  apply rowsOK_of_no_rows
  intro c hc
  simp only [tableLineCmds, List.mem_cons, List.not_mem_nil, or_false] at hc
  rcases hc with rfl | rfl | rfl <;> exact isRowCmd_line l s _ _ _ _

theorem rowsOK_startNewPageCmds (l : LayoutConfig) (s : StyleConfig)
    (inv : Invoice) (pn : ℕ) :
    rowsOK l s (startNewPageCmds inv l s pn) := by
  apply rowsOK_of_no_rows
  intro c hc
  unfold startNewPageCmds at hc
  by_cases h : pn = 0
  · rw [if_pos h] at hc
    simp at hc
  · rw [if_neg h] at hc
    simp only [List.mem_cons, List.not_mem_nil, or_false] at hc
    rcases hc with rfl | rfl
    · exact isRowCmd_showPage l s
    · exact isRowCmd_rightText l s _ _ _ _ _

theorem rowsOK_rowCmds (l : LayoutConfig) (s : StyleConfig) (inv : Invoice)
    (item : InvoiceItem) (ln : String) (first : Bool) (f : String) (fs y : ℚ)
    (hy : l.page_break_threshold ≤ y) :
    rowsOK l s (rowCmds inv l item ln first f fs y) := by
  intro c hc hrc
  unfold rowCmds at hc
  rcases List.mem_cons.mp hc with rfl | hc2
  · exact hy
  · by_cases h : first = true
    · rw [if_pos h] at hc2
      simp only [List.mem_cons, List.not_mem_nil, or_false] at hc2
      rcases hc2 with rfl | rfl | rfl <;>
        (rw [isRowCmd_rightText] at hrc; cases hrc)
    · rw [if_neg h] at hc2
      simp at hc2

theorem headedScan_rowCmds (l : LayoutConfig) (s : StyleConfig) (inv : Invoice)
    (item : InvoiceItem) (ln : String) (first : Bool) (f : String) (fs y : ℚ)
    (acc : Bool × Bool) (h : acc.2 = true) :
    headedScan l s acc (rowCmds inv l item ln first f fs y) = (acc.1, true) := by
  unfold rowCmds headedScan
  rw [List.foldl_cons, scanStep_leftText l s acc h]
  by_cases hfst : first = true
  · rw [if_pos hfst]
    simp [scanStep_rightText]
  · rw [if_neg hfst]
    rfl

theorem rowStep_eq (inv : Invoice) (l : LayoutConfig) (item : InvoiceItem)
    (ln : String) (first : Bool) (st : GenState) :
    rowStep inv l item ln first st =
      { st with
        y := st.y - l.table_row_height
        cmds := st.cmds ++ rowCmds inv l item ln first st.font st.fontSize st.y } := by
  by_cases h : first = true
  · simp [rowStep, drawString, drawRightString, emit, rowCmds, h,
      GenState.mk.injEq, List.append_assoc]
  · simp [rowStep, drawString, drawRightString, emit, rowCmds, h,
      GenState.mk.injEq, List.append_assoc]

theorem pageBreakBlock_eq (inv : Invoice) (l : LayoutConfig) (s : StyleConfig)
    (st : GenState) :
    (pageBreakBlock inv l s st).y =
        pageHeight - l.margin_top - 5 * mmQ - 4 * mmQ - 5 * mmQ ∧
    (pageBreakBlock inv l s st).cmds =
      st.cmds ++ (tableLineCmds l st.tableTopY st.tableBottomY ++
        (startNewPageCmds inv l s st.pageNumber ++
          headerCmds inv l s (pageHeight - l.margin_top))) := by
  by_cases h : st.pageNumber = 0 <;>
    simp [pageBreakBlock, drawTableLines_eq, startNewPage_eq, renderTableHeader_eq,
      startNewPageCmds, h, List.append_assoc]

/-! ## Claim C6: the pagination invariant -/

theorem scanned_renderTableHeader (inv : Invoice) (l : LayoutConfig)
    (s : StyleConfig) (X : GenState) :
    scanned l s (renderTableHeader inv l s X) = ((scanned l s X).1, true) := by
  unfold scanned
  rw [renderTableHeader_eq]
  show headedScan l s (true, false) (X.cmds ++ headerCmds inv l s X.y) = _
  rw [headedScan_append, headedScan_headerCmds]

theorem rowsOK_renderTableHeader (inv : Invoice) (l : LayoutConfig)
    (s : StyleConfig) (hf : s.font_regular ≠ s.font_bold) (X : GenState)
    (h : rowsOK l s X.cmds) :
    rowsOK l s (renderTableHeader inv l s X).cmds := by
  rw [renderTableHeader_eq]
  show rowsOK l s (X.cmds ++ headerCmds inv l s X.y)
  exact (rowsOK_append l s _ _).mpr ⟨h, rowsOK_headerCmds l s inv hf X.y⟩

theorem scanned_drawTableLines (l : LayoutConfig) (s : StyleConfig) (X : GenState) :
    scanned l s (drawTableLines l X) = scanned l s X := by
  unfold scanned
  rw [drawTableLines_eq]
  show headedScan l s (true, false) (X.cmds ++ tableLineCmds l X.tableTopY X.tableBottomY) = _
  rw [headedScan_append, headedScan_tableLineCmds]

theorem rowsOK_drawTableLines (l : LayoutConfig) (s : StyleConfig) (X : GenState)
    (h : rowsOK l s X.cmds) :
    rowsOK l s (drawTableLines l X).cmds := by
  rw [drawTableLines_eq]
  show rowsOK l s (X.cmds ++ tableLineCmds l X.tableTopY X.tableBottomY)
  exact (rowsOK_append l s _ _).mpr ⟨h, rowsOK_tableLineCmds l s _ _⟩

theorem renderItemLines_inv (inv : Invoice) (l : LayoutConfig) (s : StyleConfig)
    (item : InvoiceItem)
    (hf : s.font_regular ≠ s.font_bold)
    (hm : l.page_break_threshold ≤
      pageHeight - l.margin_top - 5 * mmQ - 4 * mmQ - 5 * mmQ)
    (lines : List String) :
    ∀ (first : Bool) (st : GenState) (ok : Bool),
      scanned l s st = (ok, true) → rowsOK l s st.cmds →
      scanned l s (renderItemLines inv l s item lines first st) = (ok, true) ∧
      rowsOK l s (renderItemLines inv l s item lines first st).cmds := by
  induction lines with
  | nil =>
      intro first st ok h1 h2
      exact ⟨h1, h2⟩
  | cons ln rest ih =>
      intro first st ok h1 h2
      have hstep : renderItemLines inv l s item (ln :: rest) first st =
          renderItemLines inv l s item rest false
            (rowStep inv l item ln first
              (if st.y < l.page_break_threshold then pageBreakBlock inv l s st
               else st)) := rfl
      rw [hstep]
      set st1 := if st.y < l.page_break_threshold then pageBreakBlock inv l s st else st
        with hst1
      have hy1 : l.page_break_threshold ≤ st1.y := by
        rw [hst1]
        by_cases hbr : st.y < l.page_break_threshold
        · rw [if_pos hbr, (pageBreakBlock_eq inv l s st).1]
          linarith [hm]
        · rw [if_neg hbr]
          exact not_lt.mp hbr
      have hs1 : scanned l s st1 = (ok, true) := by
        rw [hst1]
        by_cases hbr : st.y < l.page_break_threshold
        · rw [if_pos hbr]
          unfold scanned
          rw [(pageBreakBlock_eq inv l s st).2, headedScan_append, headedScan_append,
            headedScan_append,
            show headedScan l s (true, false) st.cmds = (ok, true) from h1,
            headedScan_tableLineCmds, headedScan_headerCmds]
          simp [headedScan_startNewPageCmds_fst]
        · rw [if_neg hbr]
          exact h1
      have hr1 : rowsOK l s st1.cmds := by
        rw [hst1]
        by_cases hbr : st.y < l.page_break_threshold
        · rw [if_pos hbr, (pageBreakBlock_eq inv l s st).2]
          refine (rowsOK_append l s _ _).mpr ⟨h2, ?_⟩
          refine (rowsOK_append l s _ _).mpr ⟨rowsOK_tableLineCmds l s _ _, ?_⟩
          exact (rowsOK_append l s _ _).mpr
            ⟨rowsOK_startNewPageCmds l s inv _, rowsOK_headerCmds l s inv hf _⟩
        · rw [if_neg hbr]
          exact h2
      have hs2 : scanned l s (rowStep inv l item ln first st1) = (ok, true) := by
        rw [rowStep_eq]
        show headedScan l s (true, false)
          (st1.cmds ++ rowCmds inv l item ln first st1.font st1.fontSize st1.y) = (ok, true)
        rw [headedScan_append,
          show headedScan l s (true, false) st1.cmds = (ok, true) from hs1,
          headedScan_rowCmds l s inv item ln first _ _ _ _ rfl]
      have hr2 : rowsOK l s (rowStep inv l item ln first st1).cmds := by
        rw [rowStep_eq]
        show rowsOK l s (st1.cmds ++ rowCmds inv l item ln first st1.font st1.fontSize st1.y)
        exact (rowsOK_append l s _ _).mpr
          ⟨hr1, rowsOK_rowCmds l s inv item ln first _ _ _ hy1⟩
      exact ih false (rowStep inv l item ln first st1) ok hs2 hr2

theorem renderTableItem_inv (inv : Invoice) (l : LayoutConfig) (s : StyleConfig)
    (item : InvoiceItem)
    (hf : s.font_regular ≠ s.font_bold)
    (hm : l.page_break_threshold ≤
      pageHeight - l.margin_top - 5 * mmQ - 4 * mmQ - 5 * mmQ)
    (st : GenState) (ok : Bool)
    (h1 : scanned l s st = (ok, true)) (h2 : rowsOK l s st.cmds) :
    scanned l s (renderTableItem inv l s item st) = (ok, true) ∧
    rowsOK l s (renderTableItem inv l s item st).cmds :=
  renderItemLines_inv inv l s item hf hm
    (if wrapText item.description l.description_wrap_width = [] then [""]
     else wrapText item.description l.description_wrap_width) true st ok h1 h2

theorem foldl_renderTableItem_inv (inv : Invoice) (l : LayoutConfig)
    (s : StyleConfig)
    (hf : s.font_regular ≠ s.font_bold)
    (hm : l.page_break_threshold ≤
      pageHeight - l.margin_top - 5 * mmQ - 4 * mmQ - 5 * mmQ)
    (items : List InvoiceItem) :
    ∀ (st : GenState) (ok : Bool), scanned l s st = (ok, true) → rowsOK l s st.cmds →
      scanned l s (items.foldl (fun st it => renderTableItem inv l s it st) st) = (ok, true) ∧
      rowsOK l s (items.foldl (fun st it => renderTableItem inv l s it st) st).cmds := by
  induction items with
  | nil =>
      intro st ok h1 h2
      exact ⟨h1, h2⟩
  | cons it rest ih =>
      intro st ok h1 h2
      rw [List.foldl_cons]
      obtain ⟨a, b⟩ := renderTableItem_inv inv l s it hf hm st ok h1 h2
      exact ih _ ok a b

/-- C6 amended: in the items-table trace from a clean start, the
header-before-rows scan succeeds, meaning the table header is rendered on
every page before any table row on that page; and every table row is painted
at or above the page-break threshold, so the break check is applied before
every single rendered line.  The break fires when the cursor itself drops
below the threshold; the bottom margin is not subtracted first. -/
theorem c6_table_pagination (inv : Invoice) (l : LayoutConfig) (s : StyleConfig)
    (st : GenState)
    (hf : s.font_regular ≠ s.font_bold)
    (hm : l.page_break_threshold ≤
      pageHeight - l.margin_top - 5 * mmQ - 4 * mmQ - 5 * mmQ)
    (hc : st.cmds = []) :
    (headedScan l s (true, false) (renderItemsTable inv l s st).cmds).1 = true ∧
    rowsOK l s (renderItemsTable inv l s st).cmds := by
  have hgoal : renderItemsTable inv l s st =
      drawTableLines l
        (inv.items.foldl (fun st it => renderTableItem inv l s it st)
          (renderTableHeader inv l s
            { st with y := st.y - l.section_gap, tableTopY := st.y - l.section_gap })) := rfl
  rw [hgoal]
  have h0 : scanned l s
      ({ st with y := st.y - l.section_gap, tableTopY := st.y - l.section_gap } : GenState) =
      (true, false) := by
    show headedScan l s (true, false) st.cmds = (true, false)
    rw [hc]
    rfl
  have h0r : rowsOK l s
      ({ st with y := st.y - l.section_gap, tableTopY := st.y - l.section_gap } : GenState).cmds := by
    show rowsOK l s st.cmds
    rw [hc]
    intro c hmem
    exact absurd hmem (List.not_mem_nil c)
  have hH : scanned l s (renderTableHeader inv l s
      { st with y := st.y - l.section_gap, tableTopY := st.y - l.section_gap }) =
      (true, true) := by
    rw [scanned_renderTableHeader, h0]
  have hHr : rowsOK l s (renderTableHeader inv l s
      { st with y := st.y - l.section_gap, tableTopY := st.y - l.section_gap }).cmds :=
    rowsOK_renderTableHeader inv l s hf _ h0r
  obtain ⟨hF, hFr⟩ := foldl_renderTableItem_inv inv l s hf hm inv.items _ true hH hHr
  constructor
  · show (scanned l s (drawTableLines l _)).1 = true
    rw [scanned_drawTableLines, hF]
  · exact rowsOK_drawTableLines l s _ hFr

/-- C6 counterexample: with the default layout, a state whose cursor is at
50 mm satisfies the claimed trigger (cursor minus bottom margin below the
40 mm threshold), yet rendering an item draws its row with no page break in
the emitted trace: the code compares the cursor itself against the
threshold, without subtracting the bottom margin. -/
theorem c6_counterexample :
    50 * mmQ - layoutDefault.margin_bottom < layoutDefault.page_break_threshold ∧
    ((renderTableItem cInvA layoutDefault styleDefault cItem6 cSt6).cmds.all
      (fun c => !isShowPage c)) = true ∧
    ((renderTableItem cInvA layoutDefault styleDefault cItem6 cSt6).cmds.any
      (isRowCmd layoutDefault styleDefault)) = true := by
  have hW : (if wrapText cItem6.description layoutDefault.description_wrap_width = []
      then [""] else wrapText cItem6.description layoutDefault.description_wrap_width) =
      ["x"] := by decide
  have hnb : ¬(cSt6.y < layoutDefault.page_break_threshold) := by
    norm_num [cSt6, layoutDefault, mmQ]
  have hcmds : (renderTableItem cInvA layoutDefault styleDefault cItem6 cSt6).cmds =
      rowCmds cInvA layoutDefault cItem6 "x" true cSt6.font cSt6.fontSize cSt6.y := by
    show (renderItemLines cInvA layoutDefault styleDefault cItem6
      (if wrapText cItem6.description layoutDefault.description_wrap_width = []
       then [""] else wrapText cItem6.description layoutDefault.description_wrap_width)
      true cSt6).cmds = _
    rw [hW]
    show (rowStep cInvA layoutDefault cItem6 "x" true
      (if cSt6.y < layoutDefault.page_break_threshold
       then pageBreakBlock cInvA layoutDefault styleDefault cSt6 else cSt6)).cmds = _
    rw [if_neg hnb, rowStep_eq]
    show cSt6.cmds ++ rowCmds cInvA layoutDefault cItem6 "x" true
      cSt6.font cSt6.fontSize cSt6.y = _
    rw [show cSt6.cmds = [] from rfl]
    rfl
  refine ⟨by norm_num [layoutDefault, mmQ], ?_, ?_⟩
  · rw [hcmds]
    simp [rowCmds, isShowPage]
  · rw [hcmds]
    simp [rowCmds, isRowCmd, cSt6, styleDefault]

/-- Witness for C6 with the default layout and style on a concrete invoice. -/
theorem c6_witness :
    styleDefault.font_regular ≠ styleDefault.font_bold ∧
    layoutDefault.page_break_threshold ≤
      pageHeight - layoutDefault.margin_top - 5 * mmQ - 4 * mmQ - 5 * mmQ ∧
    (headedScan layoutDefault styleDefault (true, false)
      (renderItemsTable cInvA layoutDefault styleDefault cSt0).cmds).1 = true := by
  have hf : styleDefault.font_regular ≠ styleDefault.font_bold := by decide
  have hm : layoutDefault.page_break_threshold ≤
      pageHeight - layoutDefault.margin_top - 5 * mmQ - 4 * mmQ - 5 * mmQ := by
    norm_num [layoutDefault, pageHeight, mmQ]
  exact ⟨hf, hm,
    (c6_table_pagination cInvA layoutDefault styleDefault cSt0 hf hm rfl).1⟩

/-! ## Claim C7 -/

theorem renderItemLines_cmds_mono (inv : Invoice) (l : LayoutConfig) (s : StyleConfig)
    (item : InvoiceItem) (lines : List String) :
    ∀ (first : Bool) (st : GenState),
      st.cmds <+: (renderItemLines inv l s item lines first st).cmds := by
  induction lines with
  | nil =>
      intro first st
      exact List.prefix_refl _
  | cons ln rest ih =>
      intro first st
      have hstep : renderItemLines inv l s item (ln :: rest) first st =
          renderItemLines inv l s item rest false
            (rowStep inv l item ln first
              (if st.y < l.page_break_threshold then pageBreakBlock inv l s st
               else st)) := rfl
      rw [hstep]
      have h1 : st.cmds <+:
          (if st.y < l.page_break_threshold then pageBreakBlock inv l s st else st).cmds := by
        by_cases hbr : st.y < l.page_break_threshold
        · rw [if_pos hbr, (pageBreakBlock_eq inv l s st).2]
          exact List.prefix_append _ _
        · rw [if_neg hbr]
      have h2 : (if st.y < l.page_break_threshold then pageBreakBlock inv l s st
          else st).cmds <+:
          (rowStep inv l item ln first
            (if st.y < l.page_break_threshold then pageBreakBlock inv l s st else st)).cmds := by
        rw [rowStep_eq]
        exact List.prefix_append _ _
      exact (h1.trans h2).trans (ih false _)

theorem foldl_renderTableItem_cmds_mono (inv : Invoice) (l : LayoutConfig)
    (s : StyleConfig) (items : List InvoiceItem) :
    ∀ st : GenState,
      st.cmds <+: (items.foldl (fun st it => renderTableItem inv l s it st) st).cmds := by
  induction items with
  | nil =>
      intro st
      exact List.prefix_refl _
  | cons it rest ih =>
      intro st
      rw [List.foldl_cons]
      have h1 : st.cmds <+: (renderTableItem inv l s it st).cmds :=
        renderItemLines_cmds_mono inv l s it _ true st
      exact h1.trans (ih _)

/-- C7: validate is a total function returning the concatenation of the
child validations, the per-item validations and the invoice-level checks; an
invoice without items receives the missing-items warning rather than an
error; and rendering still emits the structural table header for every
invoice and every start state, so generation proceeds regardless of any
warnings. -/
theorem c7_validate (inv : Invoice) :
    inv.validate = inv.issuer.validate ++ inv.client.validate ++ inv.metadata.validate ++
      inv.payment.validate ++ (inv.items.map InvoiceItem.validate).flatten ++
      (if inv.items = [] then ["Rechnung: Keine Positionen vorhanden"] else []) ∧
    (inv.items = [] → "Rechnung: Keine Positionen vorhanden" ∈ inv.validate) ∧
    (∀ (l : LayoutConfig) (s : StyleConfig) (st : GenState),
      ((renderItemsTable inv l s st).cmds.any (isHeaderCmd l s)) = true) := by
  refine ⟨rfl, fun h => ?_, fun l s st => ?_⟩
  · unfold Invoice.validate
    rw [h]
    simp
  · have hgoal : renderItemsTable inv l s st =
        drawTableLines l
          (inv.items.foldl (fun st it => renderTableItem inv l s it st)
            (renderTableHeader inv l s
              { st with y := st.y - l.section_gap, tableTopY := st.y - l.section_gap })) := rfl
    rw [hgoal]
    have hmem1 : Cmd.text s.font_bold l.font_size_normal false (tableLeft l + padQ)
        (({ st with y := st.y - l.section_gap, tableTopY := st.y - l.section_gap } : GenState).y
          - 5 * mmQ) (inv.t "service") ∈
        (renderTableHeader inv l s
          { st with y := st.y - l.section_gap, tableTopY := st.y - l.section_gap }).cmds := by
      rw [renderTableHeader_eq]
      show _ ∈ _ ++ headerCmds inv l s _
      apply List.mem_append.mpr
      right
      exact List.mem_cons_self _ _
    have hmem2 := (foldl_renderTableItem_cmds_mono inv l s inv.items
      (renderTableHeader inv l s
        { st with y := st.y - l.section_gap, tableTopY := st.y - l.section_gap })).subset hmem1
    have hmem3 : Cmd.text s.font_bold l.font_size_normal false (tableLeft l + padQ)
        (({ st with y := st.y - l.section_gap, tableTopY := st.y - l.section_gap } : GenState).y
          - 5 * mmQ) (inv.t "service") ∈
        (drawTableLines l
          (inv.items.foldl (fun st it => renderTableItem inv l s it st)
            (renderTableHeader inv l s
              { st with y := st.y - l.section_gap, tableTopY := st.y - l.section_gap }))).cmds := by
      rw [drawTableLines_eq]
      show _ ∈ _ ++ tableLineCmds l _ _
      exact List.mem_append.mpr (Or.inl hmem2)
    apply List.any_eq_true.mpr
    refine ⟨_, hmem3, ?_⟩
    simp [isHeaderCmd]

/-- Witness for C7 on an invoice without items. -/
theorem c7_witness :
    cInvEmpty.items = [] ∧ "Rechnung: Keine Positionen vorhanden" ∈ cInvEmpty.validate :=
  ⟨rfl, (c7_validate cInvEmpty).2.1 rfl⟩

end BKTherapy
